import Mathlib

/-!
# Cube3D: the cube state and the piece picker

A shallow embedding of `src/cube3d.js`: the catalog `CUBIE_ORDER`, the lookup
`getStateIndex`, the lock test `correct`, and the handlers that `initPicker`
installs on the candidate buttons and on the erase and rotate buttons.

What is modelled and how:

* a JavaScript array of integers is a `List Int`; a read `a[i]` is `jsGet a i`,
  with `none` standing for `undefined`; `===` on two such reads is equality of
  the two `Option Int` values;
* an element write `a[i] = v` is `jsSet a i v`; it answers `none` when `i` is
  not an index of an existing element, because the effect of such a write (a
  named property for a negative index, a grown array with holes otherwise)
  has no counterpart in a `List Int`. `none` therefore means "outside the
  modelled fragment", never "rejected";
* `localStorage` is the pair `lastPermutation`, `lastOrientation`, each the
  parsed value of its key, `none` when the key is absent (`JSON.parse(null)`
  is `null`, and indexing `null` throws);
* the DOM part of the state is the list of candidate buttons in `#picker` and
  the `disabled` flag and `onclick` closure of `#erase` and `#rotate`, which
  are taken to be buttons: a click on a disabled one dispatches no event;
* positions are integer triples (only copied and compared);
* drawing (`canvas`, `Cubie.setColors`, `Cubie.erase`, `Cubie.rotate`) and
  `updateParity` write nothing to the modelled state and are left out.
-/

namespace Cube3D

/-- Order of cubies in permutation and orientation states (`cube3d.js` 9-10). -/
def CUBIE_ORDER : List String :=
  ["UF", "UR", "UB", "UL", "DF", "DR", "DB", "DL", "FR", "FL", "BR", "BL",
   "UFR", "URB", "UBL", "ULF", "DRF", "DFL", "DLB", "DBR"]

/-- JavaScript `String.prototype.length`: the number of UTF-16 code units. -/
def jsLength (s : String) : Nat :=
  (s.toList.map (fun c => if c.toNat < 65536 then 1 else 2)).sum

/-- JavaScript `Array.prototype.indexOf` on an array of strings, counting from
`i`: the first position holding `x`, or `-1`. -/
def indexOfFrom (x : String) : List String → Int → Int
  | [], _ => -1
  | y :: ys, i => if y = x then i else indexOfFrom x ys (i + 1)

/-- `static getStateIndex(cubie)` (`cube3d.js` 203-205). -/
def getStateIndex (cubie : String) : Int :=
  indexOfFrom cubie CUBIE_ORDER 0

/-- Array read `a[i]`; `none` is `undefined`. -/
def jsGet (a : List Int) (i : Int) : Option Int :=
  if 0 ≤ i then a[i.toNat]? else none

/-- Array element write `a[i] = v`, defined on the indices of existing
elements only. -/
def jsSet (a : List Int) (i : Int) (v : Int) : Option (List Int) :=
  if 0 ≤ i ∧ i.toNat < a.length then some (a.set i.toNat v) else none

/-- `Array.prototype.includes` on an array of integers. -/
def includes (a : List Int) (v : Int) : Bool :=
  a.contains v

/-- A `THREE.Vector3` with the coordinates used for cubies. -/
structure Vector3 where
  x : Int
  y : Int
  z : Int
deriving DecidableEq

/-- The part of a `Cubie` object that `initPicker` reads. -/
structure Cubie where
  name : String
  position : Vector3
deriving DecidableEq

/-- The variables captured by the `onclick` closures of `initPicker`. -/
structure Closure where
  cubie : Cubie
  stateIndex : Int
deriving DecidableEq

/-- A candidate button appended to `#picker` (`cube3d.js` 118-144). -/
structure CandidateButton where
  piece : String
  disabled : Bool
  onclick : Closure
deriving DecidableEq

/-- The `#erase` or `#rotate` button: its flag and its handler, if one was
ever installed. -/
structure ActionButton where
  disabled : Bool
  onclick : Option Closure
deriving DecidableEq

/-- The state of a `Cube3D` object together with the page controls and the
two storage keys it uses. -/
structure State where
  permutation : List Int
  orientation : List Int
  answerPermutation : List Int
  answerOrientation : List Int
  selectionPosition : Vector3
  selectionVisible : Bool
  /-- Opacity of the selection box, in hundredths. -/
  selectionOpacity : Nat
  picker : List CandidateButton
  erase : ActionButton
  rotate : ActionButton
  lastPermutation : Option (List Int)
  lastOrientation : Option (List Int)
deriving DecidableEq

/-- `correct(index)` (`cube3d.js` 180-185). `none` is the `TypeError` raised
by indexing `null` when a storage key is absent; `&&` does not look at
`lastOrientation` when the permutation entries differ. -/
def correct (s : State) (index : Int) : Option Bool :=
  match s.lastPermutation with
  | none => none
  | some lastPermutation =>
    if jsGet lastPermutation index = jsGet s.answerPermutation index then
      match s.lastOrientation with
      | none => none
      | some lastOrientation =>
        some (decide (jsGet lastOrientation index = jsGet s.answerOrientation index))
    else some false

/-- The guard `cubie.name.length === 1 || this.correct(stateIndex)`
(`cube3d.js` 106); `||` does not call `correct` for a one-letter name. -/
def lockCheck (s : State) (cubie : Cubie) : Option Bool :=
  if jsLength cubie.name = 1 then some true
  else correct s (getStateIndex cubie.name)

/-- The candidate names pushed onto `CUBIES` (`cube3d.js` 112-116). -/
def candidates (cubie : Cubie) : List String :=
  if jsLength cubie.name = 2 then
    ["UB", "UL", "DB", "DL", "BL", "FL", "UF", "UR", "DF", "DR", "BR", "FR"]
  else if jsLength cubie.name = 3 then
    ["UBL", "ULF", "UFR", "URB", "DLB", "DFL", "DRF", "DBR"]
  else []

/-- `initPicker(cubie, keepSelection)` (`cube3d.js` 89-164). When `correct`
throws, the handler stops there and the writes made so far stay. -/
def initPicker (s : State) (cubie : Cubie) (keepSelection : Bool) : State :=
  let stateIndex := getStateIndex cubie.name
  let s := { s with picker := [] }
  if !keepSelection && decide (cubie.position = s.selectionPosition) then
    { s with
      selectionPosition := ⟨0, 0, 0⟩
      selectionVisible := false
      erase := { s.erase with disabled := true }
      rotate := { s.rotate with disabled := true } }
  else
    let s := { s with selectionPosition := cubie.position, selectionVisible := true }
    match lockCheck s cubie with
    | none => s
    | some true =>
      { s with
        erase := { s.erase with disabled := true }
        rotate := { s.rotate with disabled := true }
        selectionOpacity := 25 }
    | some false =>
      { s with
        selectionOpacity := 50
        picker := (candidates cubie).map (fun piece =>
          { piece := piece
            disabled := includes s.permutation (getStateIndex piece)
            onclick := ⟨cubie, stateIndex⟩ })
        erase := ⟨false, some ⟨cubie, stateIndex⟩⟩
        rotate := ⟨false, some ⟨cubie, stateIndex⟩⟩ }

/-- The body of `button.onclick` for the candidate `piece` (`cube3d.js`
137-143). -/
def buttonOnclick (s : State) (piece : String) (c : Closure) : Option State :=
  match jsSet s.permutation c.stateIndex (getStateIndex piece) with
  | none => none
  | some permutation =>
    match jsSet s.orientation c.stateIndex 0 with
    | none => none
    | some orientation =>
      some (initPicker { s with permutation := permutation, orientation := orientation }
        c.cubie true)

/-- The body of `erase.onclick` (`cube3d.js` 148-153). -/
def eraseOnclick (s : State) (c : Closure) : Option State :=
  match jsSet s.permutation c.stateIndex (-1) with
  | none => none
  | some permutation => some (initPicker { s with permutation := permutation } c.cubie true)

/-- The body of `rotate.onclick` (`cube3d.js` 155-162). -/
def rotateOnclick (s : State) (c : Closure) : Option State :=
  match jsGet s.orientation c.stateIndex with
  | none => none
  | some o =>
    match jsSet s.orientation c.stateIndex (o - 1) with
    | none => none
    | some orientation =>
      if o - 1 < 0 then
        match jsSet orientation c.stateIndex ((jsLength c.cubie.name : Int) - 1) with
        | none => none
        | some orientation => some { s with orientation := orientation }
      else some { s with orientation := orientation }

/-- What the user can do with the page. -/
inductive Event where
  /-- A `pointerup` that passes the two guards and hits `cubie`
  (`cube3d.js` 66-76): `initPicker(cubie)`. -/
  | select (cubie : Cubie)
  /-- A click on the `i`-th button of `#picker`. -/
  | assign (i : Nat)
  /-- A click on `#erase`. -/
  | erase
  /-- A click on `#rotate`. -/
  | rotate
deriving DecidableEq

/-- One event. A click on a button that is absent, disabled or without a
handler runs no code and leaves the state as it is. -/
def step (s : State) : Event → Option State
  | .select cubie => some (initPicker s cubie false)
  | .assign i =>
    match s.picker[i]? with
    | none => some s
    | some b => if b.disabled then some s else buttonOnclick s b.piece b.onclick
  | .erase =>
    if s.erase.disabled then some s
    else match s.erase.onclick with
      | none => some s
      | some c => eraseOnclick s c
  | .rotate =>
    if s.rotate.disabled then some s
    else match s.rotate.onclick with
      | none => some s
      | some c => rotateOnclick s c

/-- A sequence of events, in order. -/
def run (s : State) : List Event → Option State
  | [] => some s
  | e :: es =>
    match step s e with
    | none => none
    | some s1 => run s1 es

/-- The fields set by the class body and the constructor (`cube3d.js` 17-18,
35-39, 78-79), with an empty `#picker`, no handler on `#erase` and `#rotate`,
and the given storage contents. The page markup is not in the source; as long
as no handler is installed the two `disabled` flags have no effect, and they
are taken as set. -/
def new (answerState : List Int) (lastPermutation lastOrientation : Option (List Int)) : State :=
  { permutation := [0, 1, 2, 3, 4, 5, 6, 7, 8, 9, 10, 11, 12, 13, 14, 15, 16, 17, 18, 19]
    orientation := [0, 0, 0, 0, 0, 0, 0, 0, 0, 0, 0, 0, 0, 0, 0, 0, 0, 0, 0, 0]
    answerPermutation := answerState.take 20
    answerOrientation := answerState.drop 20
    selectionPosition := ⟨0, 0, 0⟩
    selectionVisible := false
    selectionOpacity := 50
    picker := []
    erase := ⟨true, none⟩
    rotate := ⟨true, none⟩
    lastPermutation := lastPermutation
    lastOrientation := lastOrientation }

/-- A closure made by `initPicker` for a tracked slot: `stateIndex` is the
catalog index of the captured cubie. -/
def Closure.Ok (c : Closure) : Prop :=
  c.stateIndex = getStateIndex c.cubie.name ∧ 0 ≤ c.stateIndex

/-- Invariant (a) of the state vectors. -/
def Sized (s : State) : Prop :=
  s.permutation.length = 20 ∧ s.orientation.length = 20

/-- The handlers on `#erase` and `#rotate`, when present, come from
`initPicker`. -/
def HandlersOk (s : State) : Prop :=
  (∀ c, s.erase.onclick = some c → c.Ok) ∧ (∀ c, s.rotate.onclick = some c → c.Ok)

/-- The buttons of `#picker` come from `initPicker` and their `disabled`
flags agree with the live `permutation`. -/
def PickerFresh (s : State) : Prop :=
  ∀ b ∈ s.picker, b.onclick.Ok ∧ b.disabled = includes s.permutation (getStateIndex b.piece)

/-- The states the page can be in: vectors of length 20 and controls as
`initPicker` leaves them. -/
def Coherent (s : State) : Prop :=
  Sized s ∧ HandlersOk s ∧ PickerFresh s

/-- Invariant (c): the values of `permutation` other than `-1` are pairwise
distinct. -/
def DistinctNonEmpty (permutation : List Int) : Prop :=
  (permutation.filter (fun v => decide (v ≠ -1))).Nodup

/-- Number of rotation states of slot `i`: 2 for the edge slots `0..11`, 3 for
the corner slots `12..19`. -/
def rotations (i : Nat) : Int :=
  if i < 12 then 2 else 3

/-- Invariant (b): every orientation entry is a rotation count of its slot. -/
def OrientationInRange (orientation : List Int) : Prop :=
  ∀ (i : Nat) (o : Int), orientation[i]? = some o → 0 ≤ o ∧ o < rotations i

/-- The value `rotate.onclick` leaves in the slot of a cubie called `name`
that held `o`. -/
def rotated (name : String) (o : Int) : Int :=
  if o - 1 < 0 then (jsLength name : Int) - 1 else o - 1

/-- How one event may change the two state vectors: not at all, by an
assignment of a value absent from `permutation`, by an erasure, or by a
rotation of a slot. -/
def VectorsStep (p o p1 o1 : List Int) : Prop :=
  (p1 = p ∧ o1 = o) ∨
  (∃ (n : Nat) (v : Int), n < 20 ∧ v ∉ p ∧ p1 = p.set n v ∧ o1 = o.set n 0) ∨
  (∃ n : Nat, n < 20 ∧ p1 = p.set n (-1) ∧ o1 = o) ∨
  (∃ (n : Nat) (x : Int), n < 20 ∧ o[n]? = some x ∧ p1 = p ∧
    o1 = o.set n (if x - 1 < 0 then rotations n - 1 else x - 1))

/-! ## Sample data -/

/-- The solved cube as the constructor argument: the identity permutation
followed by twenty zero orientations. -/
def solved : List Int :=
  [0, 1, 2, 3, 4, 5, 6, 7, 8, 9, 10, 11, 12, 13, 14, 15, 16, 17, 18, 19,
   0, 0, 0, 0, 0, 0, 0, 0, 0, 0, 0, 0, 0, 0, 0, 0, 0, 0, 0, 0]

/-- A saved permutation in which no slot is filled. -/
def blank : List Int :=
  [-1, -1, -1, -1, -1, -1, -1, -1, -1, -1, -1, -1, -1, -1, -1, -1, -1, -1, -1, -1]

/-- Twenty zero orientations. -/
def zeros : List Int :=
  [0, 0, 0, 0, 0, 0, 0, 0, 0, 0, 0, 0, 0, 0, 0, 0, 0, 0, 0, 0]

/-- A fresh page whose storage holds a blank cube: nothing is locked but the
centers. -/
def fresh : State :=
  new solved (some blank) (some zeros)

/-- The cubie `UF`, made by the constructor with `i = 1, j = 2, k = 2`. -/
def cubieUF : Cubie := ⟨"UF", ⟨0, 1, 1⟩⟩

/-- The cubie `DR`, made by the constructor with `i = 2, j = 0, k = 1`. -/
def cubieDR : Cubie := ⟨"DR", ⟨1, -1, 0⟩⟩

/-- The cubie `UFR`, made by the constructor with `i = 2, j = 2, k = 2`. -/
def cubieUFR : Cubie := ⟨"UFR", ⟨1, 1, 1⟩⟩

/-- The center cubie `U`, made by the constructor with `i = 1, j = 2, k = 1`. -/
def cubieU : Cubie := ⟨"U", ⟨0, 1, 0⟩⟩

/-- The hidden middle cubie, whose name is empty. -/
def cubieCore : Cubie := ⟨"", ⟨0, 0, 0⟩⟩

/-- What the locked branch of `initPicker` leaves on the page: no candidate
button, `#erase` and `#rotate` disabled, the selection box at opacity 0.25. -/
def ShownLocked (s : State) : Prop :=
  s.picker = [] ∧ s.erase.disabled = true ∧ s.rotate.disabled = true ∧ s.selectionOpacity = 25

/-- A page whose storage holds the solved cube, the answer being the solved
cube too. -/
def saved : State :=
  new solved
    (some [0, 1, 2, 3, 4, 5, 6, 7, 8, 9, 10, 11, 12, 13, 14, 15, 16, 17, 18, 19])
    (some zeros)

instance (s : State) : Decidable (ShownLocked s) := by
  unfold ShownLocked
  infer_instance

/-- The closures on the page: those of the candidate buttons and those of
`#erase` and `#rotate`. -/
def closures (s : State) : List Closure :=
  s.picker.map (fun b => b.onclick) ++ s.erase.onclick.toList ++ s.rotate.onclick.toList

/-- The page after the user moved the piece `DR` into slot 0 and left slot 5
empty, then selected the cubie `DR` of slot 5. -/
def busy : State :=
  (run fresh [.select cubieUF, .erase, .select cubieDR, .erase, .select cubieUF, .assign 9,
    .select cubieDR]).getD fresh

/-! ## The catalog -/

theorem indexOfFrom_not_mem (x : String) (l : List String) (i : Int) (h : x ∉ l) :
    indexOfFrom x l i = -1 := by
  induction l generalizing i with
  | nil => rfl
  | cons y ys ih =>
    have hy : ¬ y = x := fun e => h (by simp [e])
    have hys : x ∉ ys := fun e => h (by simp [e])
    simp [indexOfFrom, hy, ih _ hys]

theorem indexOfFrom_mem (x : String) (l : List String) (i : Int) (h : x ∈ l) :
    i ≤ indexOfFrom x l i ∧ indexOfFrom x l i < i + l.length := by
  induction l generalizing i with
  | nil => simp at h
  | cons y ys ih =>
    by_cases hy : y = x
    · simp only [indexOfFrom, hy, if_true, List.length_cons]
      constructor <;> omega
    · have hys : x ∈ ys := by
        rcases List.mem_cons.1 h with e | e
        · exact absurd e.symm hy
        · exact e
      have := ih (i + 1) hys
      simp only [indexOfFrom, hy, if_false, List.length_cons]
      constructor <;> omega

theorem getStateIndex_of_not_mem (name : String) (h : name ∉ CUBIE_ORDER) :
    getStateIndex name = -1 :=
  indexOfFrom_not_mem name CUBIE_ORDER 0 h

theorem getStateIndex_of_mem (name : String) (h : name ∈ CUBIE_ORDER) :
    0 ≤ getStateIndex name ∧ getStateIndex name < 20 := by
  have := indexOfFrom_mem name CUBIE_ORDER 0 h
  simpa [getStateIndex, CUBIE_ORDER] using this

theorem getStateIndex_range (name : String) :
    -1 ≤ getStateIndex name ∧ getStateIndex name < 20 := by
  by_cases h : name ∈ CUBIE_ORDER
  · have := getStateIndex_of_mem name h
    omega
  · rw [getStateIndex_of_not_mem name h]
    omega

theorem mem_of_getStateIndex_nonneg (name : String) (h : 0 ≤ getStateIndex name) :
    name ∈ CUBIE_ORDER := by
  by_contra hn
  rw [getStateIndex_of_not_mem name hn] at h
  omega

theorem jsLength_of_tracked (name : String) (h : 0 ≤ getStateIndex name) :
    (getStateIndex name < 12 ∧ jsLength name = 2) ∨
    (12 ≤ getStateIndex name ∧ jsLength name = 3) := by
  have hm := mem_of_getStateIndex_nonneg name h
  simp only [CUBIE_ORDER, List.mem_cons, List.mem_singleton, List.not_mem_nil, or_false] at hm
  rcases hm with e | e | e | e | e | e | e | e | e | e | e | e | e | e | e | e | e | e | e | e <;>
    subst e <;> decide

/-! ## `initPicker` -/

theorem initPicker_permutation (s : State) (cubie : Cubie) (k : Bool) :
    (initPicker s cubie k).permutation = s.permutation := by
  unfold initPicker
  dsimp only
  split
  · rfl
  · split <;> rfl

theorem initPicker_orientation (s : State) (cubie : Cubie) (k : Bool) :
    (initPicker s cubie k).orientation = s.orientation := by
  unfold initPicker
  dsimp only
  split
  · rfl
  · split <;> rfl

theorem lockCheck_false_tracked (s : State) (cubie : Cubie)
    (h : lockCheck s cubie = some false) : 0 ≤ getStateIndex cubie.name := by
  by_contra hneg
  have hr := getStateIndex_range cubie.name
  have hi : getStateIndex cubie.name = -1 := by omega
  unfold lockCheck at h
  split at h
  · simp at h
  · rw [hi] at h
    unfold correct at h
    split at h
    · simp at h
    · simp only [jsGet, show ¬ (0 : Int) ≤ -1 by decide, if_false, if_true] at h
      split at h <;> simp at h

/-- The three outcomes of `initPicker`. -/
theorem initPicker_cases (s : State) (cubie : Cubie) (k : Bool) :
    (initPicker s cubie k =
        { s with
          picker := []
          selectionPosition := ⟨0, 0, 0⟩
          selectionVisible := false
          erase := { s.erase with disabled := true }
          rotate := { s.rotate with disabled := true } } ∧
      k = false ∧ cubie.position = s.selectionPosition) ∨
    (initPicker s cubie k =
        { s with picker := [], selectionPosition := cubie.position, selectionVisible := true } ∧
      lockCheck s cubie = none) ∨
    (initPicker s cubie k =
        { s with
          picker := []
          selectionPosition := cubie.position
          selectionVisible := true
          erase := { s.erase with disabled := true }
          rotate := { s.rotate with disabled := true }
          selectionOpacity := 25 } ∧
      lockCheck s cubie = some true) ∨
    (initPicker s cubie k =
        { s with
          selectionPosition := cubie.position
          selectionVisible := true
          selectionOpacity := 50
          picker := (candidates cubie).map (fun piece =>
            { piece := piece
              disabled := includes s.permutation (getStateIndex piece)
              onclick := ⟨cubie, getStateIndex cubie.name⟩ })
          erase := ⟨false, some ⟨cubie, getStateIndex cubie.name⟩⟩
          rotate := ⟨false, some ⟨cubie, getStateIndex cubie.name⟩⟩ } ∧
      lockCheck s cubie = some false ∧ (k = true ∨ cubie.position ≠ s.selectionPosition)) := by
  by_cases hd : k = false ∧ cubie.position = s.selectionPosition
  · left
    refine ⟨?_, hd.1, hd.2⟩
    simp [initPicker, hd.1, hd.2]
  · right
    have hk : k = true ∨ cubie.position ≠ s.selectionPosition := by
      cases k
      · right
        exact fun e => hd ⟨rfl, e⟩
      · left
        rfl
    have hc : (!k && decide (cubie.position = s.selectionPosition)) = false := by
      rcases hk with e | e
      · simp [e]
      · simp [e]
    have hl : lockCheck
        { s with picker := [], selectionPosition := cubie.position, selectionVisible := true }
        cubie = lockCheck s cubie := rfl
    unfold initPicker
    simp only [hc, hl]
    cases hlc : lockCheck s cubie with
    | none => left; simp
    | some b =>
      cases b
      · right; right; simp [hk]
      · right; left; simp

theorem initPicker_coherent (s : State) (cubie : Cubie) (k : Bool)
    (hs : Sized s) (hh : HandlersOk s) : Coherent (initPicker s cubie k) := by
  rcases initPicker_cases s cubie k with ⟨e, -⟩ | ⟨e, -⟩ | ⟨e, -⟩ | ⟨e, hl, -⟩
  · rw [e]
    exact ⟨hs, hh, by simp [PickerFresh]⟩
  · rw [e]
    exact ⟨hs, hh, by simp [PickerFresh]⟩
  · rw [e]
    exact ⟨hs, hh, by simp [PickerFresh]⟩
  · rw [e]
    have hok : Closure.Ok ⟨cubie, getStateIndex cubie.name⟩ :=
      ⟨rfl, lockCheck_false_tracked s cubie hl⟩
    refine ⟨hs, ⟨?_, ?_⟩, ?_⟩
    · intro c hc
      simp only [Option.some.injEq] at hc
      exact hc ▸ hok
    · intro c hc
      simp only [Option.some.injEq] at hc
      exact hc ▸ hok
    · intro b hb
      simp only [List.mem_map] at hb
      obtain ⟨piece, -, rfl⟩ := hb
      exact ⟨hok, rfl⟩

/-! ## The handlers -/

theorem Closure.Ok.lt {c : Closure} (h : c.Ok) : c.stateIndex < 20 := by
  have := getStateIndex_range c.cubie.name
  rw [h.1]
  exact this.2

theorem jsSet_of_lt (a : List Int) (i : Int) (v : Int) (h0 : 0 ≤ i)
    (h1 : i.toNat < a.length) : jsSet a i v = some (a.set i.toNat v) := by
  simp [jsSet, h0, h1]

theorem jsGet_of_nonneg (a : List Int) (i : Int) (h0 : 0 ≤ i) :
    jsGet a i = a[i.toNat]? := by
  simp [jsGet, h0]

theorem Closure.Ok.toNat_lt {c : Closure} (h : c.Ok) {a : List Int} (ha : a.length = 20) :
    c.stateIndex.toNat < a.length := by
  have h0 := h.2
  have h1 := h.lt
  omega

theorem buttonOnclick_eq (s : State) (piece : String) (c : Closure)
    (hs : Sized s) (hc : c.Ok) :
    buttonOnclick s piece c =
      some (initPicker
        { s with
          permutation := s.permutation.set c.stateIndex.toNat (getStateIndex piece)
          orientation := s.orientation.set c.stateIndex.toNat 0 }
        c.cubie true) := by
  unfold buttonOnclick
  rw [jsSet_of_lt _ _ _ hc.2 (hc.toNat_lt hs.1), jsSet_of_lt _ _ _ hc.2 (hc.toNat_lt hs.2)]

theorem eraseOnclick_eq (s : State) (c : Closure) (hs : Sized s) (hc : c.Ok) :
    eraseOnclick s c =
      some (initPicker { s with permutation := s.permutation.set c.stateIndex.toNat (-1) }
        c.cubie true) := by
  unfold eraseOnclick
  rw [jsSet_of_lt _ _ _ hc.2 (hc.toNat_lt hs.1)]

theorem rotateOnclick_eq (s : State) (c : Closure) (hs : Sized s) (hc : c.Ok) :
    ∃ o, s.orientation[c.stateIndex.toNat]? = some o ∧
      rotateOnclick s c =
        some { s with
          orientation := s.orientation.set c.stateIndex.toNat (rotated c.cubie.name o) } := by
  have hlt := hc.toNat_lt hs.2
  refine ⟨s.orientation[c.stateIndex.toNat], List.getElem?_eq_getElem hlt, ?_⟩
  unfold rotateOnclick
  rw [jsGet_of_nonneg _ _ hc.2, List.getElem?_eq_getElem hlt]
  simp only
  rw [jsSet_of_lt _ _ _ hc.2 hlt]
  simp only [rotated]
  split
  · rw [jsSet_of_lt _ _ _ hc.2 (by simpa using hlt)]
    simp [List.set_set]
  · rfl

theorem includes_eq_false {a : List Int} {v : Int} (h : includes a v = false) : v ∉ a := by
  intro hm
  have : includes a v = true := by
    unfold includes
    exact List.elem_iff.2 hm
  rw [h] at this
  exact Bool.noConfusion this

theorem rotated_eq (c : Closure) (hc : c.Ok) (x : Int) :
    rotated c.cubie.name x =
      if x - 1 < 0 then rotations c.stateIndex.toNat - 1 else x - 1 := by
  have h0 : 0 ≤ getStateIndex c.cubie.name := hc.1 ▸ hc.2
  have hi := hc.1
  unfold rotated rotations
  rcases jsLength_of_tracked c.cubie.name h0 with ⟨hlt, hl⟩ | ⟨hge, hl⟩
  · have : c.stateIndex.toNat < 12 := by omega
    simp [hl, this]
  · have : ¬ c.stateIndex.toNat < 12 := by omega
    simp [hl, this]

/-- Every event is defined on a coherent state, leads to a coherent state and
changes the vectors in one of the four listed ways. -/
theorem step_spec (s : State) (e : Event) (h : Coherent s) :
    ∃ s1, step s e = some s1 ∧ Coherent s1 ∧
      VectorsStep s.permutation s.orientation s1.permutation s1.orientation := by
  obtain ⟨hs, hh, hp⟩ := h
  have h20 : s.permutation.length = 20 := hs.1
  have hstay : VectorsStep s.permutation s.orientation s.permutation s.orientation :=
    Or.inl ⟨rfl, rfl⟩
  cases e with
  | select cubie =>
    refine ⟨_, rfl, initPicker_coherent s cubie false hs hh, Or.inl ⟨?_, ?_⟩⟩
    · exact initPicker_permutation s cubie false
    · exact initPicker_orientation s cubie false
  | assign i =>
    cases hb : s.picker[i]? with
    | none => exact ⟨s, by simp [step, hb], ⟨hs, hh, hp⟩, hstay⟩
    | some b =>
      have hmem : b ∈ s.picker := List.getElem?_mem hb
      obtain ⟨hok, hdis⟩ := hp b hmem
      cases hd : b.disabled with
      | true => exact ⟨s, by simp [step, hb, hd], ⟨hs, hh, hp⟩, hstay⟩
      | false =>
        refine ⟨_, by simp only [step, hb, hd]; exact buttonOnclick_eq s b.piece b.onclick hs hok,
          ?_, ?_⟩
        · apply initPicker_coherent
          · exact ⟨by simpa using hs.1, by simpa using hs.2⟩
          · exact hh
        · right; left
          refine ⟨b.onclick.stateIndex.toNat, getStateIndex b.piece, ?_, ?_, ?_, ?_⟩
          · have := hok.toNat_lt hs.1
            omega
          · exact includes_eq_false (hdis ▸ hd)
          · rw [initPicker_permutation]
          · rw [initPicker_orientation]
  | erase =>
    cases hd : s.erase.disabled with
    | true => exact ⟨s, by simp [step, hd], ⟨hs, hh, hp⟩, hstay⟩
    | false =>
      cases ho : s.erase.onclick with
      | none => exact ⟨s, by simp [step, hd, ho], ⟨hs, hh, hp⟩, hstay⟩
      | some c =>
        have hok := hh.1 c ho
        refine ⟨_, by simp only [step, hd, ho]; exact eraseOnclick_eq s c hs hok, ?_, ?_⟩
        · apply initPicker_coherent
          · exact ⟨by simpa using hs.1, hs.2⟩
          · exact hh
        · right; right; left
          refine ⟨c.stateIndex.toNat, ?_, ?_, ?_⟩
          · have := hok.toNat_lt hs.1
            omega
          · rw [initPicker_permutation]
          · rw [initPicker_orientation]
  | rotate =>
    cases hd : s.rotate.disabled with
    | true => exact ⟨s, by simp [step, hd], ⟨hs, hh, hp⟩, hstay⟩
    | false =>
      cases ho : s.rotate.onclick with
      | none => exact ⟨s, by simp [step, hd, ho], ⟨hs, hh, hp⟩, hstay⟩
      | some c =>
        have hok := hh.2 c ho
        obtain ⟨x, hx, hr⟩ := rotateOnclick_eq s c hs hok
        refine ⟨{ s with
            orientation := s.orientation.set c.stateIndex.toNat (rotated c.cubie.name x) },
          ?_, ⟨⟨hs.1, ?_⟩, hh, hp⟩, ?_⟩
        · simp only [step, hd, ho]
          exact hr
        · simpa using hs.2
        · right; right; right
          refine ⟨c.stateIndex.toNat, x, ?_, hx, rfl, ?_⟩
          · have := hok.toNat_lt hs.1
            omega
          · rw [rotated_eq c hok x]

/-! ## The invariants, one event at a time -/

theorem distinct_set (l : List Int) (n : Nat) (v : Int) (hv : v = -1 ∨ v ∉ l)
    (h : DistinctNonEmpty l) : DistinctNonEmpty (l.set n v) := by
  unfold DistinctNonEmpty at *
  induction l generalizing n with
  | nil => simp
  | cons a l ih =>
    have hl : (l.filter (fun v => decide (v ≠ -1))).Nodup := by
      rw [List.filter_cons] at h
      split at h
      · exact (List.nodup_cons.1 h).2
      · exact h
    have hv1 : v = -1 ∨ v ∉ l := by
      rcases hv with e | e
      · exact Or.inl e
      · exact Or.inr (fun hm => e (List.mem_cons_of_mem _ hm))
    cases n with
    | zero =>
      rw [List.set_cons_zero, List.filter_cons]
      split
      · rename_i hne
        have hne1 : v ≠ -1 := by simpa using hne
        have hvl : v ∉ l := by
          rcases hv1 with e | e
          · exact absurd e hne1
          · exact e
        exact List.nodup_cons.2 ⟨fun hm => hvl (List.mem_filter.1 hm).1, hl⟩
      · exact hl
    | succ n =>
      rw [List.set_cons_succ, List.filter_cons]
      split
      · rename_i hne
        refine List.nodup_cons.2 ⟨?_, ih n hv1 hl⟩
        intro hm
        have hm1 := (List.mem_filter.1 hm).1
        rw [List.filter_cons, if_pos hne] at h
        have hnot := (List.nodup_cons.1 h).1
        rcases List.mem_or_eq_of_mem_set hm1 with e | e
        · exact hnot (List.mem_filter.2 ⟨e, hne⟩)
        · rcases hv with e1 | e1
          · have hne1 : a ≠ -1 := by simpa using hne
            exact hne1 (e.trans e1)
          · exact e1 (by simp [e])
      · exact ih n hv1 hl

theorem inRange_set (o : List Int) (n : Nat) (y : Int) (hy : 0 ≤ y ∧ y < rotations n)
    (h : OrientationInRange o) : OrientationInRange (o.set n y) := by
  intro i x hx
  rw [List.getElem?_set] at hx
  split at hx
  · rename_i e
    subst e
    split at hx
    · simp only [Option.some.injEq] at hx
      exact hx ▸ hy
    · exact absurd hx (by simp)
  · exact h i x hx

theorem rotations_pos (n : Nat) : 0 < rotations n - 1 + 1 ∧ 2 ≤ rotations n := by
  unfold rotations
  split <;> omega

theorem VectorsStep.distinct {p o p1 o1 : List Int} (h : VectorsStep p o p1 o1)
    (hd : DistinctNonEmpty p) : DistinctNonEmpty p1 := by
  rcases h with ⟨e, -⟩ | ⟨n, v, -, hv, e, -⟩ | ⟨n, -, e, -⟩ | ⟨n, x, -, -, e, -⟩
  · exact e ▸ hd
  · exact e ▸ distinct_set p n v (Or.inr hv) hd
  · exact e ▸ distinct_set p n (-1) (Or.inl rfl) hd
  · exact e ▸ hd

theorem VectorsStep.inRange {p o p1 o1 : List Int} (h : VectorsStep p o p1 o1)
    (hr : OrientationInRange o) : OrientationInRange o1 := by
  rcases h with ⟨-, e⟩ | ⟨n, v, -, -, -, e⟩ | ⟨n, -, -, e⟩ | ⟨n, x, -, hx, -, e⟩
  · exact e ▸ hr
  · have := rotations_pos n
    exact e ▸ inRange_set o n 0 ⟨le_refl 0, by omega⟩ hr
  · exact e ▸ hr
  · have h2 := rotations_pos n
    have hx1 := hr n x hx
    rw [e]
    apply inRange_set o n _ _ hr
    split <;> omega

theorem new_coherent (answerState : List Int) (lp lo : Option (List Int)) :
    Coherent (new answerState lp lo) := by
  refine ⟨⟨rfl, rfl⟩, ⟨?_, ?_⟩, ?_⟩
  · intro c hc
    simp [new] at hc
  · intro c hc
    simp [new] at hc
  · intro b hb
    simp [new] at hb

theorem new_distinct (answerState : List Int) (lp lo : Option (List Int)) :
    DistinctNonEmpty (new answerState lp lo).permutation := by
  show DistinctNonEmpty [0, 1, 2, 3, 4, 5, 6, 7, 8, 9, 10, 11, 12, 13, 14, 15, 16, 17, 18, 19]
  unfold DistinctNonEmpty
  decide

theorem new_inRange (answerState : List Int) (lp lo : Option (List Int)) :
    OrientationInRange (new answerState lp lo).orientation := by
  intro i x hx
  have hi : i < 20 := by
    by_contra hge
    have : (new answerState lp lo).orientation[i]? = none :=
      List.getElem?_eq_none (by simp [new]; omega)
    rw [this] at hx
    exact absurd hx (by simp)
  simp only [new] at hx
  unfold rotations
  interval_cases i <;> simp at hx <;> subst hx <;> simp

/-! ## Sequences of events -/

theorem run_spec (s : State) (events : List Event) (h : Coherent s) :
    ∃ s1, run s events = some s1 ∧ Coherent s1 ∧
      (DistinctNonEmpty s.permutation → DistinctNonEmpty s1.permutation) ∧
      (OrientationInRange s.orientation → OrientationInRange s1.orientation) := by
  induction events generalizing s with
  | nil => exact ⟨s, rfl, h, id, id⟩
  | cons e es ih =>
    obtain ⟨s1, h1, hc1, hv⟩ := step_spec s e h
    obtain ⟨s2, h2, hc2, hd2, hr2⟩ := ih s1 hc1
    refine ⟨s2, ?_, hc2, fun hd => hd2 (hv.distinct hd), fun hr => hr2 (hv.inRange hr)⟩
    simp only [run, h1]
    exact h2

/-! ## The claims -/

/-- C6: `getStateIndex` inverts the catalog order. The catalog has 20 entries,
the entry at position `i` has index `i`, the entry at the index of a tracked
name is that name, the names are pairwise distinct, every name outside the
catalog (among them the six centers and the empty name) has index `-1`, and
`"UF"`, `"UFR"`, `""` have the indices 0, 12 and -1. -/
theorem getStateIndex_inverts_CUBIE_ORDER :
    CUBIE_ORDER.length = 20 ∧
    (∀ (i : Nat) (name : String), CUBIE_ORDER[i]? = some name → getStateIndex name = (i : Int)) ∧
    (∀ name : String, 0 ≤ getStateIndex name →
      CUBIE_ORDER[(getStateIndex name).toNat]? = some name) ∧
    CUBIE_ORDER.Nodup ∧
    (∀ name : String, name ∉ CUBIE_ORDER → getStateIndex name = -1) ∧
    (∀ name ∈ ["U", "D", "F", "B", "L", "R", ""], getStateIndex name = -1) ∧
    getStateIndex "UF" = 0 ∧ getStateIndex "UFR" = 12 ∧ getStateIndex "" = -1 := by
  refine ⟨rfl, ?_, ?_, by decide, getStateIndex_of_not_mem, by decide, by decide, by decide,
    by decide⟩
  · intro i name h
    have hi : i < 20 := by
      by_contra hge
      have : CUBIE_ORDER[i]? = none := List.getElem?_eq_none (by simp [CUBIE_ORDER]; omega)
      rw [this] at h
      exact absurd h (by simp)
    interval_cases i <;> simp [CUBIE_ORDER] at h <;> subst h <;> decide
  · intro name h
    have hm := mem_of_getStateIndex_nonneg name h
    simp only [CUBIE_ORDER, List.mem_cons, List.mem_singleton, List.not_mem_nil, or_false] at hm
    rcases hm with e | e | e | e | e | e | e | e | e | e | e | e | e | e | e | e | e | e | e | e <;>
      subst e <;> decide

/-- C1: from a coherent state whose non-empty `permutation` values are
pairwise distinct, every sequence of select, assign, erase and rotate events
runs to a state (again coherent) whose non-empty `permutation` values are
pairwise distinct. -/
theorem permutation_stays_distinct (s : State) (events : List Event)
    (hc : Coherent s) (hd : DistinctNonEmpty s.permutation) :
    ∃ s1, run s events = some s1 ∧ Coherent s1 ∧ DistinctNonEmpty s1.permutation := by
  obtain ⟨s1, h1, hc1, hd1, -⟩ := run_spec s events hc
  exact ⟨s1, h1, hc1, hd1 hd⟩

/-- Witness for C1: the fresh page is coherent with the identity permutation,
and a run that erases two edges and swaps them ends with distinct values. -/
theorem permutation_stays_distinct_witness :
    Coherent fresh ∧ DistinctNonEmpty fresh.permutation ∧
    fresh.permutation = [0, 1, 2, 3, 4, 5, 6, 7, 8, 9, 10, 11, 12, 13, 14, 15, 16, 17, 18, 19] ∧
    (run fresh [.select cubieUF, .erase, .select cubieDR, .erase, .assign 6, .rotate,
        .select cubieUF, .assign 9]).map (fun s => s.permutation) =
      some [5, 1, 2, 3, 4, 0, 6, 7, 8, 9, 10, 11, 12, 13, 14, 15, 16, 17, 18, 19] ∧
    ∃ s1, run fresh [.select cubieUF, .erase, .select cubieDR, .erase, .assign 6, .rotate,
        .select cubieUF, .assign 9] = some s1 ∧ Coherent s1 ∧ DistinctNonEmpty s1.permutation :=
  ⟨new_coherent _ _ _, new_distinct _ _ _, rfl, by decide,
    permutation_stays_distinct fresh _ (new_coherent _ _ _) (new_distinct _ _ _)⟩

/-- C2: from a coherent state (both vectors of length 20) whose orientation
entries are in `{0,1}` on the edge slots `0..11` and in `{0,1,2}` on the corner
slots `12..19`, every sequence of select, assign, erase and rotate events runs
to a state with the same property, both vectors still of length 20. -/
theorem orientation_stays_in_range (s : State) (events : List Event)
    (hc : Coherent s)
    (hr : ∀ i : Nat, i < 20 → ∃ x, s.orientation[i]? = some x ∧ 0 ≤ x ∧
      x < (if i < 12 then 2 else 3)) :
    ∃ s1, run s events = some s1 ∧ Coherent s1 ∧
      s1.permutation.length = 20 ∧ s1.orientation.length = 20 ∧
      ∀ i : Nat, i < 20 → ∃ x, s1.orientation[i]? = some x ∧ 0 ≤ x ∧
        x < (if i < 12 then 2 else 3) := by
  obtain ⟨s1, h1, hc1, -, hr1⟩ := run_spec s events hc
  have hin : OrientationInRange s.orientation := by
    intro i x hx
    have hi : i < 20 := by
      have := hc.1.2
      by_contra hge
      rw [List.getElem?_eq_none (by omega)] at hx
      exact absurd hx (by simp)
    obtain ⟨y, hy, hy0, hy1⟩ := hr i hi
    rw [hx] at hy
    simp only [Option.some.injEq] at hy
    subst hy
    exact ⟨hy0, hy1⟩
  refine ⟨s1, h1, hc1, hc1.1.1, hc1.1.2, ?_⟩
  intro i hi
  have hlen := hc1.1.2
  have hlt : i < s1.orientation.length := by omega
  exact ⟨s1.orientation[i], List.getElem?_eq_getElem hlt,
    hr1 hin i _ (List.getElem?_eq_getElem hlt)⟩

/-- Witness for C2: on the fresh page every orientation is 0, and a run that
rotates an edge once and a corner twice ends in range. -/
theorem orientation_stays_in_range_witness :
    (run fresh [.select cubieDR, .rotate, .select cubieUFR, .rotate, .rotate,
        .select cubieUF, .erase]).map (fun s => s.orientation) =
      some [0, 0, 0, 0, 0, 1, 0, 0, 0, 0, 0, 0, 1, 0, 0, 0, 0, 0, 0, 0] ∧
    ∃ s1, run fresh [.select cubieDR, .rotate, .select cubieUFR, .rotate, .rotate,
        .select cubieUF, .erase] = some s1 ∧ Coherent s1 ∧
      s1.permutation.length = 20 ∧ s1.orientation.length = 20 ∧
      ∀ i : Nat, i < 20 → ∃ x, s1.orientation[i]? = some x ∧ 0 ≤ x ∧
        x < (if i < 12 then 2 else 3) :=
  ⟨by decide, orientation_stays_in_range fresh _ (new_coherent _ _ _) (by decide)⟩

/-- Clicks on a page without candidate buttons and with `#erase` and
`#rotate` disabled run no handler. -/
theorem step_of_disabled (s : State) (hp : s.picker = []) (he : s.erase.disabled = true)
    (hr : s.rotate.disabled = true) :
    (∀ i, step s (.assign i) = some s) ∧ step s .erase = some s ∧ step s .rotate = some s := by
  refine ⟨fun i => ?_, ?_, ?_⟩
  · simp [step, hp]
  · simp [step, he]
  · simp [step, hr]

/-- The page after `initPicker` on a cubie whose lock check is true. -/
theorem initPicker_of_locked (s : State) (cubie : Cubie) (k : Bool)
    (hl : lockCheck s cubie = some true) :
    (initPicker s cubie k).picker = [] ∧ (initPicker s cubie k).erase.disabled = true ∧
    (initPicker s cubie k).rotate.disabled = true ∧
    ((k = true ∨ cubie.position ≠ s.selectionPosition) →
      (initPicker s cubie k).selectionOpacity = 25 ∧
      (initPicker s cubie k).selectionPosition = cubie.position) := by
  rcases initPicker_cases s cubie k with ⟨e, hk, hp⟩ | ⟨e, h⟩ | ⟨e, -⟩ | ⟨e, h, -⟩
  · rw [e]
    refine ⟨rfl, rfl, rfl, fun hk1 => ?_⟩
    rcases hk1 with h1 | h1
    · rw [hk] at h1
      exact Bool.noConfusion h1
    · exact absurd hp h1
  · rw [hl] at h
    exact absurd h (by simp)
  · rw [e]
    exact ⟨rfl, rfl, rfl, fun _ => ⟨rfl, rfl⟩⟩
  · rw [hl] at h
    exact absurd h (by simp)

theorem lockCheck_of_length_or_correct (s : State) (cubie : Cubie)
    (h : jsLength cubie.name = 1 ∨ correct s (getStateIndex cubie.name) = some true) :
    lockCheck s cubie = some true := by
  unfold lockCheck
  split
  · rfl
  · rcases h with h1 | h1
    · contradiction
    · exact h1

/-- C3: after `initPicker` on a cubie whose name has length 1 or for which
`correct(stateIndex)` is true, the picker is empty, `#erase` and `#rotate` are
disabled, `permutation` and `orientation` are as before, and a click on a
candidate slot, on `#erase` or on `#rotate` changes nothing. -/
theorem locked_slot_rejects_edits (s : State) (cubie : Cubie) (k : Bool)
    (h : jsLength cubie.name = 1 ∨ correct s (getStateIndex cubie.name) = some true) :
    (initPicker s cubie k).picker = [] ∧
    (initPicker s cubie k).erase.disabled = true ∧
    (initPicker s cubie k).rotate.disabled = true ∧
    (initPicker s cubie k).permutation = s.permutation ∧
    (initPicker s cubie k).orientation = s.orientation ∧
    (∀ i, step (initPicker s cubie k) (.assign i) = some (initPicker s cubie k)) ∧
    step (initPicker s cubie k) .erase = some (initPicker s cubie k) ∧
    step (initPicker s cubie k) .rotate = some (initPicker s cubie k) := by
  obtain ⟨hp, he, hr, -⟩ :=
    initPicker_of_locked s cubie k (lockCheck_of_length_or_correct s cubie h)
  obtain ⟨h1, h2, h3⟩ := step_of_disabled _ hp he hr
  exact ⟨hp, he, hr, initPicker_permutation s cubie k, initPicker_orientation s cubie k,
    h1, h2, h3⟩

/-- Witness for C3: on the page that saved the solved cube, the edge `UF` is
locked by `correct` and the center `U` by its name. -/
theorem locked_slot_rejects_edits_witness :
    correct saved (getStateIndex cubieUF.name) = some true ∧
    jsLength cubieU.name = 1 ∧
    run saved [.select cubieUF, .erase, .rotate, .assign 0, .select cubieU, .erase, .rotate] =
      some (initPicker (initPicker saved cubieUF false) cubieU false) ∧
    (initPicker saved cubieUF false).picker = [] ∧
    (initPicker saved cubieUF false).erase.disabled = true ∧
    (initPicker saved cubieUF false).rotate.disabled = true ∧
    (initPicker saved cubieUF false).permutation = saved.permutation ∧
    (initPicker saved cubieUF false).orientation = saved.orientation ∧
    (∀ i, step (initPicker saved cubieUF false) (.assign i) =
      some (initPicker saved cubieUF false)) ∧
    step (initPicker saved cubieUF false) .erase = some (initPicker saved cubieUF false) ∧
    step (initPicker saved cubieUF false) .rotate = some (initPicker saved cubieUF false) :=
  ⟨by decide, by decide, by decide,
    locked_slot_rejects_edits saved cubieUF false (Or.inr (by decide))⟩

/-- The lock check on a page with both storage keys present. -/
theorem lockCheck_eq (s : State) (cubie : Cubie) (lp lo : List Int)
    (hp : s.lastPermutation = some lp) (ho : s.lastOrientation = some lo) :
    lockCheck s cubie = some (decide (jsLength cubie.name = 1 ∨
      (jsGet lp (getStateIndex cubie.name) = jsGet s.answerPermutation (getStateIndex cubie.name) ∧
       jsGet lo (getStateIndex cubie.name) =
        jsGet s.answerOrientation (getStateIndex cubie.name)))) := by
  unfold lockCheck correct
  simp only [hp, ho]
  by_cases h1 : jsLength cubie.name = 1
  · simp [h1]
  · by_cases h2 : jsGet lp (getStateIndex cubie.name) =
        jsGet s.answerPermutation (getStateIndex cubie.name)
    · simp [h1, h2]
    · simp [h1, h2]

theorem shownLocked_iff (s : State) (cubie : Cubie) (k : Bool)
    (hn : lockCheck s cubie ≠ none)
    (hk : k = true ∨ cubie.position ≠ s.selectionPosition) :
    ShownLocked (initPicker s cubie k) ↔ lockCheck s cubie = some true := by
  rcases initPicker_cases s cubie k with ⟨e, hk1, hp1⟩ | ⟨e, h⟩ | ⟨e, h⟩ | ⟨e, h, -⟩
  · rcases hk with h1 | h1
    · rw [hk1] at h1
      exact Bool.noConfusion h1
    · exact absurd hp1 h1
  · exact absurd h hn
  · rw [e]
    exact ⟨fun _ => h, fun _ => ⟨rfl, rfl, rfl, rfl⟩⟩
  · rw [e, h]
    constructor
    · intro hs
      exact absurd hs.2.1 (by simp)
    · intro hs
      exact absurd hs (by simp)

/-- C8: a cubie whose name has no catalog index is always locked. With both
storage keys present, `correct(-1)` is true whatever the snapshot and the
answer hold, so the lock check is true, `initPicker` offers no candidate,
disables `#erase` and `#rotate`, installs no handler, leaves both vectors
alone, shows the locked box when it does not deselect, and clicks change
nothing. Moreover, from a coherent page every closure that any sequence of
events leaves on the page writes at an index that is at least 0. -/
theorem untracked_name_is_locked (s : State) (cubie : Cubie) (k : Bool) (lp lo : List Int)
    (hi : getStateIndex cubie.name = -1)
    (hp : s.lastPermutation = some lp) (ho : s.lastOrientation = some lo) :
    correct s (-1) = some true ∧
    lockCheck s cubie = some true ∧
    (initPicker s cubie k).picker = [] ∧
    (initPicker s cubie k).erase = { s.erase with disabled := true } ∧
    (initPicker s cubie k).rotate = { s.rotate with disabled := true } ∧
    (initPicker s cubie k).permutation = s.permutation ∧
    (initPicker s cubie k).orientation = s.orientation ∧
    ((k = true ∨ cubie.position ≠ s.selectionPosition) → ShownLocked (initPicker s cubie k)) ∧
    (∀ i, step (initPicker s cubie k) (.assign i) = some (initPicker s cubie k)) ∧
    step (initPicker s cubie k) .erase = some (initPicker s cubie k) ∧
    step (initPicker s cubie k) .rotate = some (initPicker s cubie k) ∧
    (Coherent s → ∀ events, ∃ s1, run s events = some s1 ∧
      ∀ c ∈ closures s1, 0 ≤ c.stateIndex ∧ c.stateIndex < 20) := by
  have hc : correct s (-1) = some true := by
    unfold correct
    simp [hp, ho, jsGet]
  have hl : lockCheck s cubie = some true := by
    unfold lockCheck
    split
    · rfl
    · rw [hi]
      exact hc
  obtain ⟨h1, h2, h3, h4⟩ := initPicker_of_locked s cubie k hl
  obtain ⟨h5, h6, h7⟩ := step_of_disabled _ h1 h2 h3
  refine ⟨hc, hl, h1, ?_, ?_, initPicker_permutation s cubie k, initPicker_orientation s cubie k,
    ?_, h5, h6, h7, ?_⟩
  · rcases initPicker_cases s cubie k with ⟨e, -⟩ | ⟨e, h⟩ | ⟨e, -⟩ | ⟨e, h, -⟩
    · rw [e]
    · rw [hl] at h
      exact absurd h (by simp)
    · rw [e]
    · rw [hl] at h
      exact absurd h (by simp)
  · rcases initPicker_cases s cubie k with ⟨e, -⟩ | ⟨e, h⟩ | ⟨e, -⟩ | ⟨e, h, -⟩
    · rw [e]
    · rw [hl] at h
      exact absurd h (by simp)
    · rw [e]
    · rw [hl] at h
      exact absurd h (by simp)
  · intro hk
    exact (shownLocked_iff s cubie k (by rw [hl]; simp) hk).2 hl
  · intro hco events
    obtain ⟨s1, hr, hc1, -⟩ := run_spec s events hco
    refine ⟨s1, hr, ?_⟩
    intro c hm
    have hok : c.Ok := by
      simp only [closures, List.mem_append, List.mem_map, Option.mem_toList,
        Option.mem_def] at hm
      rcases hm with (⟨b, hb, rfl⟩ | hm) | hm
      · exact (hc1.2.2 b hb).1
      · exact hc1.2.1.1 c hm
      · exact hc1.2.1.2 c hm
    exact ⟨hok.2, hok.lt⟩

/-- Witness for C8: the empty name and the center `U` on the fresh page. -/
theorem untracked_name_is_locked_witness :
    getStateIndex cubieCore.name = -1 ∧
    fresh.lastPermutation = some blank ∧ fresh.lastOrientation = some zeros ∧
    ["U", "D", "F", "B", "L", "R", ""].all (fun name =>
      decide (getStateIndex name = -1 ∧
        ShownLocked (initPicker fresh ⟨name, ⟨1, 1, 1⟩⟩ false))) = true ∧
    lockCheck fresh cubieCore = some true ∧
    (initPicker fresh cubieCore true).picker = [] :=
  ⟨by decide, rfl, rfl, by decide,
    (untracked_name_is_locked fresh cubieCore true blank zeros (by decide) rfl rfl).2.1,
    (untracked_name_is_locked fresh cubieCore true blank zeros (by decide) rfl rfl).2.2.1⟩

/-- C7: with both storage keys present and `initPicker` not deselecting, the
cubie is shown locked exactly when its name has length 1 or the saved
permutation and orientation at its catalog index both equal the answer
there; the lock check says the same; and putting any other live `permutation`
and `orientation` in the state changes neither. -/
theorem lock_policy (s : State) (cubie : Cubie) (k : Bool) (lp lo : List Int)
    (hp : s.lastPermutation = some lp) (ho : s.lastOrientation = some lo)
    (hk : k = true ∨ cubie.position ≠ s.selectionPosition) :
    (ShownLocked (initPicker s cubie k) ↔
      (jsLength cubie.name = 1 ∨
        (jsGet lp (getStateIndex cubie.name) =
            jsGet s.answerPermutation (getStateIndex cubie.name) ∧
         jsGet lo (getStateIndex cubie.name) =
            jsGet s.answerOrientation (getStateIndex cubie.name)))) ∧
    (lockCheck s cubie = some true ↔
      (jsLength cubie.name = 1 ∨
        (jsGet lp (getStateIndex cubie.name) =
            jsGet s.answerPermutation (getStateIndex cubie.name) ∧
         jsGet lo (getStateIndex cubie.name) =
            jsGet s.answerOrientation (getStateIndex cubie.name)))) ∧
    (∀ p o : List Int,
      (ShownLocked (initPicker { s with permutation := p, orientation := o } cubie k) ↔
        ShownLocked (initPicker s cubie k)) ∧
      lockCheck { s with permutation := p, orientation := o } cubie = lockCheck s cubie) := by
  have he := lockCheck_eq s cubie lp lo hp ho
  have hn : lockCheck s cubie ≠ none := by
    rw [he]
    simp
  have h2 : lockCheck s cubie = some true ↔
      (jsLength cubie.name = 1 ∨
        (jsGet lp (getStateIndex cubie.name) =
            jsGet s.answerPermutation (getStateIndex cubie.name) ∧
         jsGet lo (getStateIndex cubie.name) =
            jsGet s.answerOrientation (getStateIndex cubie.name))) := by
    rw [he]
    simp
  refine ⟨(shownLocked_iff s cubie k hn hk).trans h2, h2, fun p o => ⟨?_, rfl⟩⟩
  have hl : lockCheck { s with permutation := p, orientation := o } cubie = lockCheck s cubie :=
    rfl
  rw [shownLocked_iff s cubie k hn hk,
    shownLocked_iff { s with permutation := p, orientation := o } cubie k (hl ▸ hn) hk, hl]

/-- Witness for C7: on the page that saved the solved cube, with the solved
cube as the answer, each of the 20 tracked names is shown locked; on the
fresh page, whose storage holds a blank cube, `UF` is not. -/
theorem lock_policy_witness :
    CUBIE_ORDER.all (fun name =>
      decide (ShownLocked (initPicker saved ⟨name, ⟨1, 1, 1⟩⟩ false) ∧
        lockCheck saved ⟨name, ⟨1, 1, 1⟩⟩ = some true)) = true ∧
    ¬ ShownLocked (initPicker fresh cubieUF false) ∧
    (ShownLocked (initPicker saved cubieUF false) ↔
      (jsLength cubieUF.name = 1 ∨
        (jsGet [0, 1, 2, 3, 4, 5, 6, 7, 8, 9, 10, 11, 12, 13, 14, 15, 16, 17, 18, 19]
            (getStateIndex cubieUF.name) =
            jsGet saved.answerPermutation (getStateIndex cubieUF.name) ∧
         jsGet zeros (getStateIndex cubieUF.name) =
            jsGet saved.answerOrientation (getStateIndex cubieUF.name)))) :=
  ⟨by decide, by decide,
    (lock_policy saved cubieUF false _ zeros rfl rfl (Or.inr (by decide))).1⟩

/-- The page after `initPicker` on a cubie whose lock check is false. -/
theorem initPicker_of_unlocked (s : State) (cubie : Cubie) (k : Bool)
    (hl : lockCheck s cubie = some false)
    (hk : k = true ∨ cubie.position ≠ s.selectionPosition) :
    initPicker s cubie k =
      { s with
        selectionPosition := cubie.position
        selectionVisible := true
        selectionOpacity := 50
        picker := (candidates cubie).map (fun piece =>
          { piece := piece
            disabled := includes s.permutation (getStateIndex piece)
            onclick := ⟨cubie, getStateIndex cubie.name⟩ })
        erase := ⟨false, some ⟨cubie, getStateIndex cubie.name⟩⟩
        rotate := ⟨false, some ⟨cubie, getStateIndex cubie.name⟩⟩ } := by
  rcases initPicker_cases s cubie k with ⟨-, hk1, hp1⟩ | ⟨-, h⟩ | ⟨-, h⟩ | ⟨e, -, -⟩
  · rcases hk with h1 | h1
    · rw [hk1] at h1
      exact Bool.noConfusion h1
    · exact absurd hp1 h1
  · rw [hl] at h
    exact absurd h (by simp)
  · rw [hl] at h
    exact absurd h (by simp)
  · exact e

theorem includes_iff (a : List Int) (v : Int) : includes a v = true ↔ v ∈ a := by
  unfold includes
  exact List.elem_iff

/-- A click on an enabled candidate button right after `initPicker`. -/
theorem step_assign_of_unlocked (s : State) (cubie : Cubie) (k : Bool) (hs : Sized s)
    (hl : lockCheck s cubie = some false)
    (hk : k = true ∨ cubie.position ≠ s.selectionPosition)
    (i : Nat) (piece : String) (hi : (candidates cubie)[i]? = some piece)
    (hfree : getStateIndex piece ∉ s.permutation) :
    ∃ s2, step (initPicker s cubie k) (.assign i) = some s2 ∧
      jsGet s2.permutation (getStateIndex cubie.name) = some (getStateIndex piece) ∧
      jsGet s2.orientation (getStateIndex cubie.name) = some 0 := by
  have hok : Closure.Ok ⟨cubie, getStateIndex cubie.name⟩ :=
    ⟨rfl, lockCheck_false_tracked s cubie hl⟩
  have hinc : includes s.permutation (getStateIndex piece) = false := by
    cases h : includes s.permutation (getStateIndex piece)
    · rfl
    · exact absurd ((includes_iff _ _).1 h) hfree
  have hn1 := hok.toNat_lt hs.1
  have hn2 := hok.toNat_lt hs.2
  refine ⟨initPicker
      { initPicker s cubie k with
        permutation := s.permutation.set (getStateIndex cubie.name).toNat (getStateIndex piece)
        orientation := s.orientation.set (getStateIndex cubie.name).toNat 0 }
      cubie true, ?_, ?_, ?_⟩
  · have hs1 : Sized (initPicker s cubie k) :=
      ⟨(initPicker_permutation s cubie k).symm ▸ hs.1,
        (initPicker_orientation s cubie k).symm ▸ hs.2⟩
    have hb := buttonOnclick_eq (initPicker s cubie k) piece
      ⟨cubie, getStateIndex cubie.name⟩ hs1 hok
    rw [initPicker_permutation, initPicker_orientation] at hb
    rw [← hb]
    have hpk : (initPicker s cubie k).picker[i]? =
        some ⟨piece, false, ⟨cubie, getStateIndex cubie.name⟩⟩ := by
      rw [initPicker_of_unlocked s cubie k hl hk]
      simp [List.getElem?_map, hi, hinc]
    simp only [step, hpk]
    rfl
  · rw [initPicker_permutation, jsGet_of_nonneg _ _ hok.2]
    exact List.getElem?_set_eq_of_lt _ hn1
  · rw [initPicker_orientation, jsGet_of_nonneg _ _ hok.2]
    exact List.getElem?_set_eq_of_lt _ hn2

/-- C4: after `initPicker` on an unlocked cubie `s` (vectors of length 20),
every candidate name of the cubie whose catalog index is not a value of
`permutation` has an enabled button, and a click on it runs and leaves
`permutation[stateIndex]` equal to the index of the candidate and
`orientation[stateIndex]` equal to 0. -/
theorem assign_writes_candidate (s : State) (cubie : Cubie) (k : Bool) (piece : String)
    (hs : Sized s) (hl : lockCheck s cubie = some false)
    (hk : k = true ∨ cubie.position ≠ s.selectionPosition)
    (hp : piece ∈ candidates cubie)
    (hfree : getStateIndex piece ∉ s.permutation) :
    ∃ (i : Nat) (b : CandidateButton),
      (initPicker s cubie k).picker[i]? = some b ∧ b.piece = piece ∧ b.disabled = false ∧
      ∃ s2, step (initPicker s cubie k) (.assign i) = some s2 ∧
        jsGet s2.permutation (getStateIndex cubie.name) = some (getStateIndex piece) ∧
        jsGet s2.orientation (getStateIndex cubie.name) = some 0 := by
  obtain ⟨i, hi⟩ := List.getElem?_of_mem hp
  have hinc : includes s.permutation (getStateIndex piece) = false := by
    cases h : includes s.permutation (getStateIndex piece)
    · rfl
    · exact absurd ((includes_iff _ _).1 h) hfree
  refine ⟨i, ⟨piece, false, ⟨cubie, getStateIndex cubie.name⟩⟩, ?_, rfl, rfl,
    step_assign_of_unlocked s cubie k hs hl hk i piece hi hfree⟩
  rw [initPicker_of_unlocked s cubie k hl hk]
  simp [List.getElem?_map, hi, hinc]

/-- Witness for C4: on the fresh page with slot 0 erased, the candidate `UF`
(button 6) is assigned back to the cubie `UF`. -/
theorem assign_writes_candidate_witness :
    (run fresh [.select cubieUF, .erase, .assign 6]).map
        (fun s => (jsGet s.permutation 0, jsGet s.orientation 0)) = some (some 0, some 0) ∧
    ∃ (i : Nat) (b : CandidateButton),
      (initPicker { fresh with permutation := fresh.permutation.set 0 (-1) } cubieUF
        true).picker[i]? = some b ∧ b.piece = "UF" ∧ b.disabled = false ∧
      ∃ s2, step (initPicker { fresh with permutation := fresh.permutation.set 0 (-1) } cubieUF
          true) (.assign i) = some s2 ∧
        jsGet s2.permutation (getStateIndex cubieUF.name) = some (getStateIndex "UF") ∧
        jsGet s2.orientation (getStateIndex cubieUF.name) = some 0 :=
  ⟨by decide,
    assign_writes_candidate { fresh with permutation := fresh.permutation.set 0 (-1) } cubieUF
      true "UF" ⟨by decide, by decide⟩ (by decide) (Or.inl rfl) (by decide) (by decide)⟩

/-- C9: right after `initPicker` on an unlocked cubie the picker holds one
button per candidate, disabled exactly when the index of the candidate is a
value of `permutation`; and on every page reached from a coherent one, a
candidate button is disabled exactly when the index of its piece is a value
of the current `permutation`, and a click on a disabled button changes
nothing. -/
theorem active_candidate_rejected (s : State) (hc : Coherent s) :
    (∀ (cubie : Cubie) (k : Bool), lockCheck s cubie = some false →
      (k = true ∨ cubie.position ≠ s.selectionPosition) →
      (initPicker s cubie k).picker = (candidates cubie).map (fun piece =>
        { piece := piece
          disabled := decide (getStateIndex piece ∈ s.permutation)
          onclick := ⟨cubie, getStateIndex cubie.name⟩ })) ∧
    (∀ events : List Event, ∃ s1, run s events = some s1 ∧
      ∀ (i : Nat) (b : CandidateButton), s1.picker[i]? = some b →
        (b.disabled = true ↔ getStateIndex b.piece ∈ s1.permutation) ∧
        (b.disabled = true →
          step s1 (.assign i) = some s1 ∧ run s (events ++ [.assign i]) = some s1)) := by
  constructor
  · intro cubie k hl hk
    rw [initPicker_of_unlocked s cubie k hl hk]
    simp only [List.map_inj_left]
    intro piece _
    congr 1
    cases h : includes s.permutation (getStateIndex piece)
    · have : getStateIndex piece ∉ s.permutation := fun hm => by
        rw [(includes_iff _ _).2 hm] at h
        exact Bool.noConfusion h
      simp [this]
    · simp [(includes_iff _ _).1 h]
  · intro events
    obtain ⟨s1, hr, hc1, -⟩ := run_spec s events hc
    refine ⟨s1, hr, fun i b hb => ?_⟩
    obtain ⟨-, hd⟩ := hc1.2.2 b (List.getElem?_mem hb)
    have hst : b.disabled = true → step s1 (.assign i) = some s1 := by
      intro h
      simp [step, hb, h]
    refine ⟨?_, fun h => ⟨hst h, ?_⟩⟩
    · rw [hd]
      exact includes_iff _ _
    · have happ : ∀ (es : List Event) (t : State),
          run t (es ++ [.assign i]) = (run t es).bind (fun u => step u (.assign i)) := by
        intro es
        induction es with
        | nil =>
          intro t
          simp only [List.nil_append, run, Option.bind]
          cases step t (.assign i) <;> rfl
        | cons e es ih =>
          intro t
          simp only [List.cons_append, run]
          cases step t e with
          | none => rfl
          | some u => exact ih u
      rw [happ, hr]
      exact hst h

/-- Witness for C9: with the index 5 of `DR` in slot 0 and the cubie `DR` of
slot 5 selected, the button of `DR` (the tenth) is disabled and a click on it
leaves the page, and so `permutation`, as it is. -/
theorem active_candidate_rejected_witness :
    busy.permutation = [5, 1, 2, 3, 4, -1, 6, 7, 8, 9, 10, 11, 12, 13, 14, 15, 16, 17, 18, 19] ∧
    getStateIndex "DR" = 5 ∧ getStateIndex cubieDR.name = 5 ∧
    busy.erase = ⟨false, some ⟨cubieDR, 5⟩⟩ ∧
    busy.picker[9]? = some ⟨"DR", true, ⟨cubieDR, 5⟩⟩ ∧
    step busy (.assign 9) = some busy ∧
    ∃ s1, run fresh [.select cubieUF, .erase, .select cubieDR, .erase, .select cubieUF,
        .assign 9, .select cubieDR] = some s1 ∧
      ∀ (i : Nat) (b : CandidateButton), s1.picker[i]? = some b →
        (b.disabled = true ↔ getStateIndex b.piece ∈ s1.permutation) ∧
        (b.disabled = true →
          step s1 (.assign i) = some s1 ∧
          run fresh ([.select cubieUF, .erase, .select cubieDR, .erase, .select cubieUF,
            .assign 9, .select cubieDR] ++ [.assign i]) = some s1) :=
  ⟨by decide, by decide, by decide, by decide, by decide, by decide,
    (active_candidate_rejected fresh (new_coherent _ _ _)).2 _⟩

/-- C10: after `initPicker` on an unlocked cubie the pieces on the candidate
buttons are, for an edge slot (index below 12), a rearrangement of the 12
two-letter names of the catalog (its first 12 entries) and, for a corner
slot, a rearrangement of the 8 three-letter names (its last 8 entries),
whichever slot of the category is selected; and a click on an enabled
candidate writes into `permutation[stateIndex]` an index of the same category
as `stateIndex`. -/
theorem candidates_are_category (s : State) (cubie : Cubie) (k : Bool) (hs : Sized s)
    (hl : lockCheck s cubie = some false)
    (hk : k = true ∨ cubie.position ≠ s.selectionPosition) :
    (getStateIndex cubie.name < 12 →
      ((initPicker s cubie k).picker.map (fun b => b.piece)).Perm (CUBIE_ORDER.take 12)) ∧
    (12 ≤ getStateIndex cubie.name →
      ((initPicker s cubie k).picker.map (fun b => b.piece)).Perm (CUBIE_ORDER.drop 12)) ∧
    ((initPicker s cubie k).picker.map (fun b => b.piece)).Nodup ∧
    CUBIE_ORDER.take 12 = CUBIE_ORDER.filter (fun name => decide (jsLength name = 2)) ∧
    CUBIE_ORDER.drop 12 = CUBIE_ORDER.filter (fun name => decide (jsLength name = 3)) ∧
    (∀ (i : Nat) (b : CandidateButton), (initPicker s cubie k).picker[i]? = some b →
      b.disabled = false →
      ∃ s2 v, step (initPicker s cubie k) (.assign i) = some s2 ∧
        jsGet s2.permutation (getStateIndex cubie.name) = some v ∧
        v = getStateIndex b.piece ∧ 0 ≤ v ∧ v < 20 ∧
        (v < 12 ↔ getStateIndex cubie.name < 12)) := by
  have h0 := lockCheck_false_tracked s cubie hl
  have hpk : (initPicker s cubie k).picker.map (fun b => b.piece) = candidates cubie := by
    rw [initPicker_of_unlocked s cubie k hl hk]
    simp [List.map_map, Function.comp_def]
  have hcat : ∀ piece ∈ candidates cubie,
      0 ≤ getStateIndex piece ∧ getStateIndex piece < 20 ∧
      (getStateIndex piece < 12 ↔ getStateIndex cubie.name < 12) := by
    intro piece hp
    rcases jsLength_of_tracked cubie.name h0 with ⟨hlt, hlen⟩ | ⟨hge, hlen⟩
    · simp only [candidates, hlen, if_true, List.mem_cons, List.mem_singleton,
        List.not_mem_nil, or_false] at hp
      have : 0 ≤ getStateIndex piece ∧ getStateIndex piece < 12 := by
        rcases hp with e | e | e | e | e | e | e | e | e | e | e | e <;> subst e <;> decide
      omega
    · simp only [candidates, hlen, if_true, List.mem_cons, List.mem_singleton,
        List.not_mem_nil, or_false, show ¬ (3 = 2) by decide, if_false] at hp
      have : 12 ≤ getStateIndex piece ∧ getStateIndex piece < 20 := by
        rcases hp with e | e | e | e | e | e | e | e <;> subst e <;> decide
      omega
  rw [hpk]
  refine ⟨?_, ?_, ?_, by decide, by decide, ?_⟩
  · intro hlt
    rcases jsLength_of_tracked cubie.name h0 with ⟨-, hlen⟩ | ⟨hge, -⟩
    · simp only [candidates, hlen, if_true]
      decide
    · omega
  · intro hge
    rcases jsLength_of_tracked cubie.name h0 with ⟨hlt, -⟩ | ⟨-, hlen⟩
    · omega
    · simp only [candidates, hlen, show ¬ (3 = 2) by decide, if_false, if_true]
      decide
  · rcases jsLength_of_tracked cubie.name h0 with ⟨-, hlen⟩ | ⟨-, hlen⟩
    · simp only [candidates, hlen, if_true]
      decide
    · simp only [candidates, hlen, show ¬ (3 = 2) by decide, if_false, if_true]
      decide
  · intro i b hb hd
    have hb1 : (candidates cubie)[i]? = some b.piece := by
      rw [← hpk, List.getElem?_map, hb]
      rfl
    have hfresh : b.disabled = includes s.permutation (getStateIndex b.piece) := by
      have hb2 := hb
      rw [initPicker_of_unlocked s cubie k hl hk] at hb2
      simp only [List.getElem?_map] at hb2
      cases hc : (candidates cubie)[i]? with
      | none =>
        rw [hc] at hb2
        simp at hb2
      | some piece =>
        rw [hc] at hb2
        simp only [Option.map_some', Option.some.injEq] at hb2
        rw [← hb2]
    have hfree : getStateIndex b.piece ∉ s.permutation := by
      intro hm
      rw [(includes_iff _ _).2 hm, hd] at hfresh
      exact Bool.noConfusion hfresh
    obtain ⟨s2, h1, h2, -⟩ := step_assign_of_unlocked s cubie k hs hl hk i b.piece hb1 hfree
    obtain ⟨h3, h4, h5⟩ := hcat b.piece (List.getElem?_mem hb1)
    exact ⟨s2, _, h1, h2, rfl, h3, h4, h5⟩

/-- Witness for C10: the candidates shown for the edge cubies `UF` and `DR`
are the same 12 names, those shown for the corner `UFR` are the 8 corner
names. -/
theorem candidates_are_category_witness :
    (initPicker fresh cubieUF false).picker.map (fun b => b.piece) =
      ["UB", "UL", "DB", "DL", "BL", "FL", "UF", "UR", "DF", "DR", "BR", "FR"] ∧
    (initPicker fresh cubieDR false).picker.map (fun b => b.piece) =
      (initPicker fresh cubieUF false).picker.map (fun b => b.piece) ∧
    (initPicker fresh cubieUFR false).picker.map (fun b => b.piece) =
      ["UBL", "ULF", "UFR", "URB", "DLB", "DFL", "DRF", "DBR"] ∧
    (getStateIndex cubieUF.name < 12 →
      ((initPicker fresh cubieUF false).picker.map (fun b => b.piece)).Perm
        (CUBIE_ORDER.take 12)) ∧
    (12 ≤ getStateIndex cubieUFR.name →
      ((initPicker fresh cubieUFR false).picker.map (fun b => b.piece)).Perm
        (CUBIE_ORDER.drop 12)) :=
  ⟨by decide, by decide, by decide,
    (candidates_are_category fresh cubieUF false ⟨by decide, by decide⟩ (by decide)
      (Or.inr (by decide))).1,
    (candidates_are_category fresh cubieUFR false ⟨by decide, by decide⟩ (by decide)
      (Or.inr (by decide))).2.1⟩

/-- A click on an enabled `#rotate` whose closure is that of a tracked cubie. -/
theorem step_rotate_eq (t : State) (c : Closure) (x : Int) (hs : Sized t) (hc : c.Ok)
    (hr : t.rotate = ⟨false, some c⟩) (hx : t.orientation[c.stateIndex.toNat]? = some x) :
    step t .rotate =
      some { t with
        orientation := t.orientation.set c.stateIndex.toNat (rotated c.cubie.name x) } := by
  obtain ⟨y, hy, he⟩ := rotateOnclick_eq t c hs hc
  rw [hx] at hy
  simp only [Option.some.injEq] at hy
  subst hy
  have hd : t.rotate.disabled = false := by rw [hr]
  have ho : t.rotate.onclick = some c := by rw [hr]
  simp only [step, hd, ho]
  exact he

/-- Repeated clicks on `#rotate`: the slot holds the iterated value. -/
theorem run_rotate (m : Nat) (t : State) (c : Closure) (x : Int) (hs : Sized t) (hc : c.Ok)
    (hr : t.rotate = ⟨false, some c⟩) (hx : t.orientation[c.stateIndex.toNat]? = some x) :
    run t (List.replicate m .rotate) =
      some { t with
        orientation := t.orientation.set c.stateIndex.toNat ((rotated c.cubie.name)^[m] x) } := by
  induction m generalizing t x with
  | zero =>
    simp only [List.replicate, run, Function.iterate_zero, id]
    have : t.orientation.set c.stateIndex.toNat x = t.orientation := by
      apply List.ext_getElem?
      intro j
      rw [List.getElem?_set]
      split
      · rename_i e
        subst e
        split
        · exact hx.symm
        · rename_i hlt
          exact (List.getElem?_eq_none (by omega)).symm
      · rfl
    rw [this]
  | succ m ih =>
    have hlt := hc.toNat_lt hs.2
    simp only [List.replicate, run, step_rotate_eq t c x hs hc hr hx]
    have h1 := ih
      { t with orientation := t.orientation.set c.stateIndex.toNat (rotated c.cubie.name x) }
      (rotated c.cubie.name x) ⟨hs.1, by simpa using hs.2⟩ hr
      (List.getElem?_set_eq_of_lt _ hlt)
    simp only [List.set_set] at h1
    rw [h1]
    simp only [Function.iterate_succ, Function.comp_apply]

/-- C5: after `initPicker` on an unlocked cubie whose slot holds `x` with
`0 ≤ x < k`, where `k` is 2 for an edge slot and 3 for a corner slot, one
click on `#rotate` runs and puts `(x - 1 + k) mod k` in the slot, and `k`
clicks give back the page as it was, so the slot holds `x` again. -/
theorem rotate_has_order (s : State) (cubie : Cubie) (keep : Bool) (x : Int) (hs : Sized s)
    (hl : lockCheck s cubie = some false)
    (hk : keep = true ∨ cubie.position ≠ s.selectionPosition)
    (hx : jsGet s.orientation (getStateIndex cubie.name) = some x)
    (hr : 0 ≤ x ∧ x < (if getStateIndex cubie.name < 12 then 2 else 3)) :
    (∃ s2, step (initPicker s cubie keep) .rotate = some s2 ∧
      jsGet s2.orientation (getStateIndex cubie.name) =
        some ((x - 1 + (if getStateIndex cubie.name < 12 then 2 else 3)) %
          (if getStateIndex cubie.name < 12 then 2 else 3)) ∧
      s2.permutation = s.permutation) ∧
    (getStateIndex cubie.name < 12 →
      run (initPicker s cubie keep) [.rotate, .rotate] = some (initPicker s cubie keep)) ∧
    (12 ≤ getStateIndex cubie.name →
      run (initPicker s cubie keep) [.rotate, .rotate, .rotate] =
        some (initPicker s cubie keep)) ∧
    jsGet (initPicker s cubie keep).orientation (getStateIndex cubie.name) = some x := by
  have h0 := lockCheck_false_tracked s cubie hl
  have hok : Closure.Ok ⟨cubie, getStateIndex cubie.name⟩ := ⟨rfl, h0⟩
  have hs1 : Sized (initPicker s cubie keep) :=
    ⟨(initPicker_permutation s cubie keep).symm ▸ hs.1,
      (initPicker_orientation s cubie keep).symm ▸ hs.2⟩
  have hrot : (initPicker s cubie keep).rotate = ⟨false, some ⟨cubie, getStateIndex cubie.name⟩⟩ := by
    rw [initPicker_of_unlocked s cubie keep hl hk]
  have hx1 : (initPicker s cubie keep).orientation[(getStateIndex cubie.name).toNat]? = some x := by
    rw [initPicker_orientation, ← jsGet_of_nonneg _ _ h0]
    exact hx
  have hlt := hok.toNat_lt hs1.2
  have hrun := fun m => run_rotate m (initPicker s cubie keep) ⟨cubie, getStateIndex cubie.name⟩
    x hs1 hok hrot hx1
  have hback : ∀ m, (rotated cubie.name)^[m] x = x →
      run (initPicker s cubie keep) (List.replicate m .rotate) =
        some (initPicker s cubie keep) := by
    intro m hm
    have h1 := hrun m
    simp only at h1
    rw [hm] at h1
    have h2 := hrun 0
    simp only [Function.iterate_zero, id] at h2
    rw [h1, ← h2]
    rfl
  refine ⟨?_, ?_, ?_, ?_⟩
  · refine ⟨_, step_rotate_eq _ ⟨cubie, getStateIndex cubie.name⟩ x hs1 hok hrot hx1, ?_,
      initPicker_permutation s cubie keep⟩
    rw [jsGet_of_nonneg _ _ h0]
    simp only
    rw [List.getElem?_set_eq_of_lt _ hlt]
    congr 1
    unfold rotated
    rcases jsLength_of_tracked cubie.name h0 with ⟨hi, hlen⟩ | ⟨hi, hlen⟩
    · have hi2 : ¬ 12 ≤ getStateIndex cubie.name := by omega
      simp only [hi, if_true] at hr ⊢
      rw [hlen]
      obtain ⟨ha, hb⟩ := hr
      interval_cases x <;> decide
    · have hi2 : ¬ getStateIndex cubie.name < 12 := by omega
      simp only [hi2, if_false] at hr ⊢
      rw [hlen]
      obtain ⟨ha, hb⟩ := hr
      interval_cases x <;> decide
  · intro hi
    apply hback 2
    rcases jsLength_of_tracked cubie.name h0 with ⟨-, hlen⟩ | ⟨hi2, -⟩
    · simp only [hi, if_true] at hr
      simp only [Function.iterate_succ, Function.iterate_zero, Function.comp_apply, id, rotated,
        hlen]
      obtain ⟨ha, hb⟩ := hr
      interval_cases x <;> decide
    · omega
  · intro hi
    apply hback 3
    rcases jsLength_of_tracked cubie.name h0 with ⟨hi2, -⟩ | ⟨-, hlen⟩
    · omega
    · have hi2 : ¬ getStateIndex cubie.name < 12 := by omega
      simp only [hi2, if_false] at hr
      simp only [Function.iterate_succ, Function.iterate_zero, Function.comp_apply, id, rotated,
        hlen]
      obtain ⟨ha, hb⟩ := hr
      interval_cases x <;> decide
  · rw [jsGet_of_nonneg _ _ h0]
    exact hx1

/-- Witness for C5: the corner `UFR` goes 0, 2, 1, 0 and the edge `DR` goes
0, 1, 0. -/
theorem rotate_has_order_witness :
    (run fresh [.select cubieUFR, .rotate]).map (fun s => jsGet s.orientation 12) =
      some (some 2) ∧
    (run fresh [.select cubieUFR, .rotate, .rotate]).map (fun s => jsGet s.orientation 12) =
      some (some 1) ∧
    (run fresh [.select cubieUFR, .rotate, .rotate, .rotate]).map
      (fun s => jsGet s.orientation 12) = some (some 0) ∧
    (run fresh [.select cubieDR, .rotate]).map (fun s => jsGet s.orientation 5) =
      some (some 1) ∧
    (run fresh [.select cubieDR, .rotate, .rotate]).map (fun s => jsGet s.orientation 5) =
      some (some 0) ∧
    (12 ≤ getStateIndex cubieUFR.name →
      run (initPicker fresh cubieUFR false) [.rotate, .rotate, .rotate] =
        some (initPicker fresh cubieUFR false)) ∧
    (getStateIndex cubieDR.name < 12 →
      run (initPicker fresh cubieDR false) [.rotate, .rotate] =
        some (initPicker fresh cubieDR false)) :=
  ⟨by decide, by decide, by decide, by decide, by decide,
    (rotate_has_order fresh cubieUFR false 0 ⟨by decide, by decide⟩ (by decide)
      (Or.inr (by decide)) (by decide) (by decide)).2.2.1,
    (rotate_has_order fresh cubieDR false 0 ⟨by decide, by decide⟩ (by decide)
      (Or.inr (by decide)) (by decide) (by decide)).2.1⟩

end Cube3D
